import Mathlib

/-! # redisgraph-cpp: the local graph model

A shallow embedding of `include/redisgraph/graph.hpp` and
`include/redisgraph/connection_context.hpp`.

Member functions that mutate the object are state passing: they take the graph
before the call and give back the returned value together with the graph after
the call.
-/

namespace redisgraph

/-! ## connection_context.hpp -/

/-- The four private members of `connection_context` (connection_context.hpp:95-98).
`redis_port_` is a `uint32_t`, the two sizes are `size_t`. -/
structure connection_context where
  redis_host_ : String
  redis_port_ : Nat
  n_threads_ : Nat
  pool_size_ : Nat
deriving DecidableEq, Repr

/-- The constructor `connection_context(host, redis_port, n_threads, pool_size)`
(connection_context.hpp:34-38). `redis_port` is a `uint16_t` value; the member that
takes it is wider, so it is stored as it is. -/
def connection_context.ctor (host : String) (redis_port n_threads pool_size : Nat) :
    connection_context :=
  { redis_host_ := host, redis_port_ := redis_port, n_threads_ := n_threads,
    pool_size_ := pool_size }

/-- The default argument `redis_port = 6379` (connection_context.hpp:35). -/
def connection_context.default_redis_port : Nat := 6379

/-- The default argument `n_threads = 4` (connection_context.hpp:35). -/
def connection_context.default_n_threads : Nat := 4

/-- The default argument `pool_size = 10` (connection_context.hpp:35). -/
def connection_context.default_pool_size : Nat := 10

/-- The copy constructor (connection_context.hpp:39-45): the new object, and the
argument after the call. The argument is taken by const reference and every member
is read, none written. -/
def connection_context.copy_ctor (context : connection_context) :
    connection_context × connection_context :=
  ({ redis_host_ := context.redis_host_, redis_port_ := context.redis_port_,
     n_threads_ := context.n_threads_, pool_size_ := context.pool_size_ }, context)

/-- The copy assignment `operator=` (connection_context.hpp:53-63): the assigned
object and the argument after the call. `same_object` is the outcome of the address
test `&context == this`. -/
def connection_context.assign (self context : connection_context) (same_object : Bool) :
    connection_context × connection_context :=
  if !same_object then
    ({ redis_host_ := context.redis_host_, redis_port_ := context.redis_port_,
       n_threads_ := context.n_threads_, pool_size_ := context.pool_size_ }, context)
  else (self, context)

/-- The accessor `host()` (connection_context.hpp:69-72). -/
def connection_context.host (c : connection_context) : String := c.redis_host_

/-- The accessor `port()` (connection_context.hpp:76-79): the `uint32_t` member is
returned as a `uint16_t`. -/
def connection_context.port (c : connection_context) : Nat := c.redis_port_ % 2 ^ 16

/-- The accessor `n_threads()` (connection_context.hpp:83-86). -/
def connection_context.n_threads (c : connection_context) : Nat := c.n_threads_

/-- The accessor `pool_size()` (connection_context.hpp:90-93). -/
def connection_context.pool_size (c : connection_context) : Nat := c.pool_size_

/-! ## Nodes and edges

`node.hpp`, `edge.hpp` and `node_hash.hpp` are included by `graph.hpp` but are
not part of the sources at hand; the three declarations below stand for them.
-/

/-- Modelled from the spec: the value `node<T>::id()` returns (node.hpp is missing).
The identity of a node is the pair of its name and the hash of its payload. -/
abbrev node_id := String × Nat

/-- Modelled from the spec: `node<T>` (node.hpp is missing), a name and a payload. -/
structure node (T : Type) where
  name : String
  data : T
deriving DecidableEq, Repr

/-- Modelled from the spec: `edge<T>` (edge.hpp is missing), built in `add_edge` as
`edge{ relation, source.id(), dest.id() }` and read through `source()` and `dest()`. -/
structure edge where
  relation : String
  source : node_id
  dest : node_id
deriving DecidableEq, Repr

variable {T : Type}

/-- Modelled from the spec: `node<T>::id()` (node.hpp is missing), the identity
`(name, hash(data))`. The payload hash `std::hash<T>` is the parameter `data_hash`. -/
def node.id (data_hash : T → Nat) (n : node T) : node_id :=
  (n.name, data_hash n.data)

/-! ## The adjacency structure

`adj_matrix` is `std::unordered_map<unique_node, std::vector<edge<T>>, node_hash>`
(graph.hpp:43). It is embedded as an association list of the nodes the keys own, each
with its edge sequence; the operations below are the three the graph uses.

The graph looks keys up with a node passed by value. What makes a stored key equal to
such a node is not fixed by `graph.hpp` alone, so the comparison is the parameter
`key_equal` of every operation; two comparisons are named below.
-/

/-- The type `adj_matrix` of graph.hpp:43: node keys, each with its edge sequence. -/
abbrev adj_matrix (T : Type) := List (node T × List edge)

/-- The key comparison of the map as declared at graph.hpp:43: the keys are
`std::unique_ptr<node<T>>` and no `key_equal` is given, so keys are compared by the
address they hold, and no stored key is equal to a node that is passed by value. -/
def key_equal_declared : node T → node T → Bool := fun _ _ => false

/-- Modelled from the spec: the key comparison the spec describes, equality of the
identity `(name, hash(data))` (node_hash.hpp is missing). -/
def key_equal_identity (data_hash : T → Nat) : node T → node T → Bool :=
  fun stored k => decide (stored.id data_hash = k.id data_hash)

/-- A key comparison is sound when keys that compare equal have the same identity.
Both comparisons above are. -/
def key_equal_sound (key_equal : node T → node T → Bool) (data_hash : T → Nat) : Prop :=
  ∀ stored k : node T, key_equal stored k = true → stored.id data_hash = k.id data_hash

/-- The call `graph_->find(k)`: the first entry whose key compares equal to `k`, or
`none` for the past-the-end iterator. -/
def adj_matrix.find (key_equal : node T → node T → Bool) (m : adj_matrix T) (k : node T) :
    Option (node T × List edge) :=
  List.find? (fun p => key_equal p.1 k) m

/-- The call `graph_->insert(std::make_pair(k, v))`: a map insert does nothing when
a key that compares equal is already present. -/
def adj_matrix.insert (key_equal : node T → node T → Bool) (m : adj_matrix T) (k : node T)
    (v : List edge) : adj_matrix T :=
  match adj_matrix.find key_equal m k with
  | some _ => m
  | none => m ++ [(k, v)]

/-- The statement `currentNode->second.push_back(e)` where `currentNode` is the
iterator `graph_->find(k)` gave: the edge goes to the end of that entry's sequence. -/
def adj_matrix.push_back (key_equal : node T → node T → Bool) :
    adj_matrix T → node T → edge → adj_matrix T
  | [], _, _ => []
  | p :: rest, k, e =>
    if key_equal p.1 k = true then (p.1, p.2 ++ [e]) :: rest
    else p :: adj_matrix.push_back key_equal rest k e

/-! ## graph.hpp -/

/-- The private members of `graph<T>` (graph.hpp:207-211). `graph_` owns the
adjacency structure and is represented by the structure it points to. -/
structure graph (T : Type) where
  name_ : String
  num_nodes_ : Int
  started_ : Bool
  context_ : connection_context
  graph_ : adj_matrix T
deriving DecidableEq

/-- The constructor `graph(name, context)` (graph.hpp:56-61), named `ctor` here since
`graph.graph` would shadow the type. It initialises `name_`
and `context_`, makes an empty map and clears `started_`. It does not write
`num_nodes_`: the member keeps whatever value the storage held, given here as
`indeterminate`. -/
def graph.ctor (name : String) (context : connection_context) (indeterminate : Int) :
    graph T :=
  { name_ := name, num_nodes_ := indeterminate, started_ := false,
    context_ := context, graph_ := [] }

/-- The getter `name()` (graph.hpp:96). -/
def graph.name (g : graph T) : String := g.name_

/-- The getter `num_nodes()` (graph.hpp:100). -/
def graph.num_nodes (g : graph T) : Int := g.num_nodes_

/-- The member `add_node` (graph.hpp:106-116). The test `node != node.end()` is the
comparison of the iterator `find` gave with the past-the-end iterator: it holds
when `find` located the key. In that branch the code inserts and returns the
candidate; otherwise it returns `std::nullopt`. -/
def graph.add_node (key_equal : node T → node T → Bool) (g : graph T) (name : String)
    (data : T) : Option (node T) × graph T :=
  let current_node : node T := { name := name, data := data }
  match adj_matrix.find key_equal g.graph_ current_node with
  | some _ =>
    (some current_node,
      { g with graph_ := adj_matrix.insert key_equal g.graph_ current_node [] })
  | none => (none, g)

/-- What a call of a value-returning function yields: the value of the `return`
statement it reached, or nothing when control ran off the end of the body. -/
inductive call_result (α : Type) where
  | returned (a : α)
  | no_return
deriving DecidableEq, Repr

/-- The member `remove_node` (graph.hpp:121-124). The body is empty: no member is
written and no `return` statement is reached. -/
def graph.remove_node (g : graph T) (_name : String) :
    call_result (Option (node T)) × graph T :=
  (call_result.no_return, g)

/-- The private member `find_direct_connection` (graph.hpp:201-206). -/
def graph.find_direct_connection (data_hash : T → Nat) (source dest : node T) (e : edge) :
    Bool :=
  let sourceId := source.id data_hash
  let destinationId := dest.id data_hash
  decide (e.source = sourceId) && decide (e.dest = destinationId)

/-- The loop of `add_edge` (graph.hpp:136-142): `existEdge` starts false and is set
whenever an edge of the sequence connects `source` to `dest`. -/
def graph.exist_edge_loop (data_hash : T → Nat) (source dest : node T) (es : List edge) :
    Bool :=
  es.foldl
    (fun existEdge e =>
      if graph.find_direct_connection data_hash source dest e then true else existEdge)
    false

/-- The member `add_edge` (graph.hpp:128-153). As in `add_node`, the test
`currentNode != currentNode.end()` holds when `find` located the key (the branch
is commented `// found.`). -/
def graph.add_edge (key_equal : node T → node T → Bool) (data_hash : T → Nat) (g : graph T)
    (relation : String) (source dest : node T) : Option edge × graph T :=
  match adj_matrix.find key_equal g.graph_ source with
  | some currentNode =>
    let existEdge := graph.exist_edge_loop data_hash source dest currentNode.2
    if !existEdge then
      let currentEdge : edge :=
        { relation := relation, source := source.id data_hash, dest := dest.id data_hash }
      (some currentEdge,
        { g with graph_ := adj_matrix.push_back key_equal g.graph_ source currentEdge })
    else (none, g)
  | none => (none, g)

/-- The edge sequence of the entry `find` locates for `k`; empty when it locates
none. -/
def graph.edges_of (key_equal : node T → node T → Bool) (g : graph T) (k : node T) :
    List edge :=
  match adj_matrix.find key_equal g.graph_ k with
  | some p => p.2
  | none => []

/-- A node is stored, for a key comparison, when `find` locates a key for it. -/
def graph.stored (key_equal : node T → node T → Bool) (g : graph T) (k : node T) : Prop :=
  (adj_matrix.find key_equal g.graph_ k).isSome = true

instance (key_equal : node T → node T → Bool) (g : graph T) (k : node T) :
    Decidable (graph.stored key_equal g k) := by
  unfold graph.stored; infer_instance

/-- Whether some key of the store has the identity of `k`, whatever the comparison
the map looks keys up with. -/
def graph.holds_identity (data_hash : T → Nat) (g : graph T) (k : node T) : Bool :=
  g.graph_.any (fun p => decide (p.1.id data_hash = k.id data_hash))

/-- Whether the sequence stored under `source` holds an edge from `source` to `dest`,
of whatever relation. -/
def graph.has_edge (key_equal : node T → node T → Bool) (data_hash : T → Nat) (g : graph T)
    (source dest : node T) : Bool :=
  (graph.edges_of key_equal g source).any
    (graph.find_direct_connection data_hash source dest)

/-- A call of one of the three mutating members. -/
inductive op (T : Type) where
  | add_node (name : String) (data : T)
  | add_edge (relation : String) (source dest : node T)
  | remove_node (name : String)

/-- The graph after one call. -/
def graph.step (key_equal : node T → node T → Bool) (data_hash : T → Nat) (g : graph T) :
    op T → graph T
  | op.add_node name data => (graph.add_node key_equal g name data).2
  | op.add_edge relation source dest =>
    (graph.add_edge key_equal data_hash g relation source dest).2
  | op.remove_node name => (graph.remove_node g name).2

/-- The graph after a sequence of calls, first call first. -/
def graph.run (key_equal : node T → node T → Bool) (data_hash : T → Nat) (g : graph T)
    (ops : List (op T)) : graph T :=
  ops.foldl (graph.step key_equal data_hash) g

/-- Every stored edge has the identity of the key it is stored under as its source. -/
def graph.source_inv (data_hash : T → Nat) (g : graph T) : Prop :=
  ∀ p ∈ g.graph_, ∀ e ∈ p.2, e.source = p.1.id data_hash

instance (data_hash : T → Nat) (g : graph T) : Decidable (graph.source_inv data_hash g) := by
  unfold graph.source_inv; infer_instance

/-! ## Lifecycle, move construction and the factory -/

/-- The member `start()` (graph.hpp:157-160). -/
def graph.start (g : graph T) : graph T := { g with started_ := true }

/-- The member `shutdown()` (graph.hpp:164-167). -/
def graph.shutdown (g : graph T) : graph T := { g with started_ := false }

/-- A graph object is Running when `started_` is set, Stopped otherwise. -/
def graph.running (g : graph T) : Bool := g.started_

/-- The members of a graph object that was moved from: `graph_` is null, the other
members are still there. -/
structure moved_graph where
  name_ : String
  num_nodes_ : Int
  started_ : Bool
  context_ : connection_context
deriving DecidableEq

/-- The move constructor `graph(graph&& g)` (graph.hpp:76-84): the constructed object
and the object moved from. `g.shutdown()` stops the source; the map pointer and the
name are moved out, the context is copy assigned (it has no move assignment) and
`num_nodes_` is copied. The last statement, `graph_->start()`, is addressed to the
map, not to the object under construction, and writes no member of it: `started_`
of the new object is never initialised and keeps what the storage held,
`indeterminate_started`. A moved-from `std::string` holds a valid but unspecified
value, `unspecified_name`; `indeterminate_context` is the context member before the
assignment. -/
def graph.move_ctor (g : graph T) (unspecified_name : String)
    (indeterminate_started : Bool) (indeterminate_context : connection_context) :
    graph T × moved_graph :=
  let g1 := graph.shutdown g
  let constructed : graph T :=
    { name_ := g1.name_, num_nodes_ := g1.num_nodes_, started_ := indeterminate_started,
      context_ := (connection_context.assign indeterminate_context g1.context_ false).1,
      graph_ := g1.graph_ }
  (constructed,
    { name_ := unspecified_name, num_nodes_ := g1.num_nodes_, started_ := g1.started_,
      context_ := g1.context_ })

/-- Modelled from the spec: `result_view` (result_view.hpp is missing), the view of a
result set; the only value built in the sources is the default constructed one. -/
inductive result_view where
  | default_constructed
deriving DecidableEq, Repr

/-- The error codes of `std::future_error`. -/
inductive future_errc where
  | broken_promise
  | future_already_retrieved
  | promise_already_satisfied
  | no_state
deriving DecidableEq, Repr

/-- Modelled from the spec: the failures of the dispatcher in the error taxonomy,
`NotStarted` and `TransportFailure`. The sources declare no such error. -/
inductive dispatcher_error where
  | NotStarted
  | TransportFailure
deriving DecidableEq, Repr

/-- The exception a shared state can hold. -/
inductive stored_exception where
  | future_error (code : future_errc)
  | dispatcher (e : dispatcher_error)
deriving DecidableEq, Repr

/-- The shared state behind a `std::future`: not ready, or ready with a value or with
an exception. A state that is not ready and has no provider left never resolves. -/
inductive shared_state (α : Type) where
  | not_ready
  | value (a : α)
  | exception (e : stored_exception)
deriving DecidableEq, Repr

/-- A `std::packaged_task<R()>`: the wrapped function and its shared state. -/
structure packaged_task (α : Type) where
  fn : Unit → α
  state : shared_state α

/-- The constructor of `std::packaged_task` from a callable: the state is not ready. -/
def packaged_task.ctor {α : Type} (fn : Unit → α) : packaged_task α :=
  { fn := fn, state := shared_state.not_ready }

/-- The call `task()`: runs the function and stores its result in the shared state. -/
def packaged_task.invoke {α : Type} (t : packaged_task α) : packaged_task α :=
  match t.state with
  | shared_state.not_ready => { t with state := shared_state.value (t.fn ()) }
  | _ => t

/-- The destructor of `std::packaged_task`: it abandons the shared state, which, when
not ready yet, is made ready with a `std::future_error` of code `broken_promise`.
The result is the state the future obtained from the task observes from then on. -/
def packaged_task.destroy {α : Type} (t : packaged_task α) : shared_state α :=
  match t.state with
  | shared_state.not_ready =>
    shared_state.exception (stored_exception.future_error future_errc.broken_promise)
  | s => s

/-- The member `query_async` (graph.hpp:172-176): what the returned future delivers,
and the graph after the call. The task is built and its future returned; the task is
a local object, never called, and is destroyed when the function returns. -/
def graph.query_async (g : graph T) (_query : String) : shared_state result_view × graph T :=
  let task : packaged_task result_view :=
    packaged_task.ctor (fun _ => result_view.default_constructed)
  (packaged_task.destroy task, g)

/-- The member `commit_async` (graph.hpp:183-187), built like `query_async` around a
function returning `false`. -/
def graph.commit_async (g : graph T) : shared_state Bool × graph T :=
  let task : packaged_task Bool := packaged_task.ctor (fun _ => false)
  (packaged_task.destroy task, g)

/-! ## Edge lookup and edge uniqueness -/

/-- The member `find_direct_connection` as a call on the object `g`: its result, and
the object after the call. The body (graph.hpp:203-205) reads and writes no member. -/
def graph.call_find_direct_connection (data_hash : T → Nat) (g : graph T)
    (source dest : node T) (e : edge) : Bool × graph T :=
  (graph.find_direct_connection data_hash source dest e, g)

/-- No edge sequence of the store holds two edges with the same ordered
(source id, dest id) pair. -/
def graph.pair_inv (g : graph T) : Prop :=
  ∀ p ∈ g.graph_, (p.2.map (fun e => (e.source, e.dest))).Nodup

instance (g : graph T) : Decidable (graph.pair_inv g) := by
  unfold graph.pair_inv; infer_instance

/-! ## Example graphs

Graphs over `std::string` payloads with `String.length` standing for the payload
hash, used to evaluate the members on concrete input.
-/

/-- The context `connection_context("127.0.0.1")` with its defaulted arguments. -/
def example_context : connection_context :=
  { redis_host_ := "127.0.0.1", redis_port_ := 6379, n_threads_ := 4, pool_size_ := 10 }

/-- The node `A("x")`. -/
def node_A : node String := { name := "A", data := "x" }

/-- The node `B("y")`. -/
def node_B : node String := { name := "B", data := "y" }

/-- The edge `likes` from `A("x")` to `B("y")`. -/
def edge_A_likes_B : edge :=
  { relation := "likes", source := node_A.id String.length, dest := node_B.id String.length }

/-- The edge `knows` from `A("x")` to `B("y")`. -/
def edge_A_knows_B : edge :=
  { relation := "knows", source := node_A.id String.length, dest := node_B.id String.length }

/-- The edge `likes` from `B("y")` to `A("x")`. -/
def edge_B_likes_A : edge :=
  { relation := "likes", source := node_B.id String.length, dest := node_A.id String.length }

/-- A graph holding `A` and `B` and no edge. -/
def graph_A_B : graph String :=
  { name_ := "G", num_nodes_ := 2, started_ := false, context_ := example_context,
    graph_ := [(node_A, []), (node_B, [])] }

/-- A graph holding `A` and `B` and the edge `likes` from `A` to `B`. -/
def graph_A_likes_B : graph String :=
  { name_ := "G", num_nodes_ := 2, started_ := false, context_ := example_context,
    graph_ := [(node_A, [edge_A_likes_B]), (node_B, [])] }

/-- A graph holding `A` and `B` and the edge `likes` from `B` to `A`. -/
def graph_B_likes_A : graph String :=
  { name_ := "G", num_nodes_ := 2, started_ := false, context_ := example_context,
    graph_ := [(node_A, []), (node_B, [edge_B_likes_A])] }

/-! ## Lemmas on the adjacency structure -/

theorem key_equal_declared_sound (data_hash : T → Nat) :
    key_equal_sound (key_equal_declared (T := T)) data_hash := by
  intro stored k h
  simp [key_equal_declared] at h

theorem key_equal_identity_sound (data_hash : T → Nat) :
    key_equal_sound (key_equal_identity data_hash) data_hash := by
  intro stored k h
  simpa [key_equal_identity] using h

theorem adj_matrix.find_declared (m : adj_matrix T) (k : node T) :
    adj_matrix.find key_equal_declared m k = none := by
  unfold adj_matrix.find
  induction m with
  | nil => rfl
  | cons q rest ih =>
    rw [List.find?_cons_of_neg]
    · exact ih
    · simp [key_equal_declared]

theorem adj_matrix.find_some_mem (key_equal : node T → node T → Bool) (m : adj_matrix T)
    (k : node T) (p : node T × List edge) (hf : adj_matrix.find key_equal m k = some p) :
    key_equal p.1 k = true ∧ p ∈ m := by
  unfold adj_matrix.find at hf
  exact ⟨@List.find?_some _ (fun q : node T × List edge => key_equal q.1 k) p m hf,
    List.mem_of_find?_eq_some hf⟩

theorem adj_matrix.find_cons (key_equal : node T → node T → Bool) (q : node T × List edge)
    (rest : adj_matrix T) (k : node T) :
    adj_matrix.find key_equal (q :: rest) k
      = if key_equal q.1 k = true then some q else adj_matrix.find key_equal rest k := by
  unfold adj_matrix.find
  by_cases hq : key_equal q.1 k = true
  · rw [if_pos hq, List.find?_cons_of_pos]
    exact hq
  · rw [if_neg hq, List.find?_cons_of_neg]
    exact hq

theorem adj_matrix.push_back_cons (key_equal : node T → node T → Bool)
    (q : node T × List edge) (rest : adj_matrix T) (k : node T) (e : edge) :
    adj_matrix.push_back key_equal (q :: rest) k e
      = if key_equal q.1 k = true then (q.1, q.2 ++ [e]) :: rest
        else q :: adj_matrix.push_back key_equal rest k e := rfl

theorem adj_matrix.find_push_back_same (key_equal : node T → node T → Bool)
    (m : adj_matrix T) (k : node T) (e : edge) (p : node T × List edge)
    (hf : adj_matrix.find key_equal m k = some p) :
    adj_matrix.find key_equal (adj_matrix.push_back key_equal m k e) k
      = some (p.1, p.2 ++ [e]) := by
  induction m with
  | nil => simp [adj_matrix.find] at hf
  | cons q rest ih =>
    rw [adj_matrix.find_cons] at hf
    rw [adj_matrix.push_back_cons]
    by_cases hq : key_equal q.1 k = true
    · rw [if_pos hq] at hf
      rw [if_pos hq, adj_matrix.find_cons,
        if_pos (show key_equal (q.1, q.2 ++ [e]).1 k = true from hq)]
      cases hf
      rfl
    · rw [if_neg hq] at hf
      rw [if_neg hq, adj_matrix.find_cons, if_neg hq]
      exact ih hf

theorem adj_matrix.find_push_back_other (key_equal : node T → node T → Bool)
    (data_hash : T → Nat) (hsound : key_equal_sound key_equal data_hash)
    (m : adj_matrix T) (k k' : node T) (e : edge)
    (hne : k'.id data_hash ≠ k.id data_hash) :
    adj_matrix.find key_equal (adj_matrix.push_back key_equal m k e) k'
      = adj_matrix.find key_equal m k' := by
  induction m with
  | nil => rfl
  | cons q rest ih =>
    rw [adj_matrix.push_back_cons]
    by_cases hq : key_equal q.1 k = true
    · have hq' : ¬ key_equal q.1 k' = true := fun h =>
        hne ((hsound q.1 k' h).symm.trans (hsound q.1 k hq))
      rw [if_pos hq, adj_matrix.find_cons, adj_matrix.find_cons, if_neg hq',
        if_neg (show ¬ key_equal (q.1, q.2 ++ [e]).1 k' = true from hq')]
    · rw [if_neg hq, adj_matrix.find_cons, adj_matrix.find_cons, ih]

theorem adj_matrix.mem_push_back (key_equal : node T → node T → Bool) (m : adj_matrix T)
    (k : node T) (e : edge) (q : node T × List edge)
    (hq : q ∈ adj_matrix.push_back key_equal m k e) :
    q ∈ m ∨ ∃ p ∈ m, key_equal p.1 k = true ∧ q = (p.1, p.2 ++ [e]) := by
  induction m with
  | nil => simp [adj_matrix.push_back] at hq
  | cons r rest ih =>
    rw [adj_matrix.push_back_cons] at hq
    by_cases hr : key_equal r.1 k = true
    · rw [if_pos hr] at hq
      rcases List.mem_cons.1 hq with hq | hq
      · exact Or.inr ⟨r, List.mem_cons_self _ _, hr, hq⟩
      · exact Or.inl (List.mem_cons_of_mem _ hq)
    · rw [if_neg hr] at hq
      rcases List.mem_cons.1 hq with hq | hq
      · exact Or.inl (hq ▸ List.mem_cons_self _ _)
      · rcases ih hq with h | ⟨p, hp, hpk, hqp⟩
        · exact Or.inl (List.mem_cons_of_mem _ h)
        · exact Or.inr ⟨p, List.mem_cons_of_mem _ hp, hpk, hqp⟩

theorem adj_matrix.mem_push_back_of_find (key_equal : node T → node T → Bool)
    (m : adj_matrix T) (k : node T) (e : edge) (p q : node T × List edge)
    (hf : adj_matrix.find key_equal m k = some p)
    (hq : q ∈ adj_matrix.push_back key_equal m k e) :
    q ∈ m ∨ q = (p.1, p.2 ++ [e]) := by
  induction m with
  | nil => simp [adj_matrix.find] at hf
  | cons r rest ih =>
    rw [adj_matrix.find_cons] at hf
    rw [adj_matrix.push_back_cons] at hq
    by_cases hr : key_equal r.1 k = true
    · rw [if_pos hr] at hf hq
      cases hf
      rcases List.mem_cons.1 hq with h | h
      · exact Or.inr h
      · exact Or.inl (List.mem_cons_of_mem _ h)
    · rw [if_neg hr] at hf hq
      rcases List.mem_cons.1 hq with h | h
      · exact Or.inl (h ▸ List.mem_cons_self _ _)
      · rcases ih hf h with h' | h'
        · exact Or.inl (List.mem_cons_of_mem _ h')
        · exact Or.inr h'

theorem adj_matrix.push_back_keys (key_equal : node T → node T → Bool) (m : adj_matrix T)
    (k : node T) (e : edge) :
    (adj_matrix.push_back key_equal m k e).map Prod.fst = m.map Prod.fst := by
  induction m with
  | nil => rfl
  | cons r rest ih =>
    rw [adj_matrix.push_back_cons]
    by_cases hr : key_equal r.1 k = true
    · rw [if_pos hr]; rfl
    · rw [if_neg hr, List.map_cons, List.map_cons, ih]

theorem adj_matrix.insert_of_found (key_equal : node T → node T → Bool) (m : adj_matrix T)
    (k : node T) (v : List edge) (p : node T × List edge)
    (hf : adj_matrix.find key_equal m k = some p) :
    adj_matrix.insert key_equal m k v = m := by
  simp [adj_matrix.insert, hf]

/-! ## Lemmas on `add_node` and `add_edge` -/

theorem graph.exist_edge_loop_eq_any (data_hash : T → Nat) (source dest : node T)
    (es : List edge) :
    graph.exist_edge_loop data_hash source dest es
      = es.any (graph.find_direct_connection data_hash source dest) := by
  unfold graph.exist_edge_loop
  have key : ∀ (l : List edge) (b : Bool),
      l.foldl (fun existEdge e =>
        if graph.find_direct_connection data_hash source dest e then true else existEdge) b
        = (b || l.any (graph.find_direct_connection data_hash source dest)) := by
    intro l
    induction l with
    | nil => intro b; simp
    | cons e l ih =>
      intro b
      simp only [List.foldl_cons, List.any_cons, ih]
      cases graph.find_direct_connection data_hash source dest e <;> cases b <;> simp
  simpa using key es false

theorem graph.add_node_of_absent (key_equal : node T → node T → Bool) (g : graph T)
    (name : String) (data : T)
    (hf : adj_matrix.find key_equal g.graph_ { name := name, data := data } = none) :
    graph.add_node key_equal g name data = (none, g) := by
  simp [graph.add_node, hf]

theorem graph.add_node_of_found (key_equal : node T → node T → Bool) (g : graph T)
    (name : String) (data : T) (p : node T × List edge)
    (hf : adj_matrix.find key_equal g.graph_ { name := name, data := data } = some p) :
    graph.add_node key_equal g name data = (some { name := name, data := data }, g) := by
  simp [graph.add_node, hf, adj_matrix.insert_of_found key_equal _ _ _ p hf]

theorem graph.add_edge_of_absent (key_equal : node T → node T → Bool) (data_hash : T → Nat)
    (g : graph T) (relation : String) (source dest : node T)
    (hf : adj_matrix.find key_equal g.graph_ source = none) :
    graph.add_edge key_equal data_hash g relation source dest = (none, g) := by
  simp [graph.add_edge, hf]

theorem graph.add_edge_of_connected (key_equal : node T → node T → Bool)
    (data_hash : T → Nat) (g : graph T) (relation : String)
    (source dest : node T) (p : node T × List edge)
    (hf : adj_matrix.find key_equal g.graph_ source = some p)
    (hc : p.2.any (graph.find_direct_connection data_hash source dest) = true) :
    graph.add_edge key_equal data_hash g relation source dest = (none, g) := by
  simp [graph.add_edge, hf, graph.exist_edge_loop_eq_any, hc]

theorem graph.add_edge_of_unconnected (key_equal : node T → node T → Bool)
    (data_hash : T → Nat) (g : graph T) (relation : String)
    (source dest : node T) (p : node T × List edge)
    (hf : adj_matrix.find key_equal g.graph_ source = some p)
    (hc : p.2.any (graph.find_direct_connection data_hash source dest) = false) :
    graph.add_edge key_equal data_hash g relation source dest
      = (some (edge.mk relation (source.id data_hash) (dest.id data_hash)),
         graph.mk g.name_ g.num_nodes_ g.started_ g.context_
           (adj_matrix.push_back key_equal g.graph_ source
             (edge.mk relation (source.id data_hash) (dest.id data_hash)))) := by
  simp [graph.add_edge, hf, graph.exist_edge_loop_eq_any, hc]

theorem graph.add_node_declared (g : graph T) (name : String) (data : T) :
    graph.add_node key_equal_declared g name data = (none, g) :=
  graph.add_node_of_absent key_equal_declared g name data (adj_matrix.find_declared _ _)

theorem graph.find_direct_connection_new_edge (data_hash : T → Nat) (relation : String)
    (source dest : node T) :
    graph.find_direct_connection data_hash source dest
      (edge.mk relation (source.id data_hash) (dest.id data_hash)) = true := by
  simp [graph.find_direct_connection]

theorem graph.edges_of_eq (key_equal : node T → node T → Bool) (g : graph T) (k : node T)
    (p : node T × List edge) (hf : adj_matrix.find key_equal g.graph_ k = some p) :
    graph.edges_of key_equal g k = p.2 := by
  simp [graph.edges_of, hf]

theorem graph.edges_of_absent (key_equal : node T → node T → Bool) (g : graph T) (k : node T)
    (hf : adj_matrix.find key_equal g.graph_ k = none) :
    graph.edges_of key_equal g k = [] := by
  simp [graph.edges_of, hf]

theorem graph.add_node_state (key_equal : node T → node T → Bool) (g : graph T)
    (name : String) (data : T) :
    (graph.add_node key_equal g name data).2 = g := by
  cases hf : adj_matrix.find key_equal g.graph_ { name := name, data := data } with
  | none => rw [graph.add_node_of_absent key_equal g name data hf]
  | some p => rw [graph.add_node_of_found key_equal g name data p hf]

theorem graph.add_edge_cases (key_equal : node T → node T → Bool) (data_hash : T → Nat)
    (g : graph T) (relation : String) (source dest : node T) :
    graph.add_edge key_equal data_hash g relation source dest = (none, g)
    ∨ ∃ p, adj_matrix.find key_equal g.graph_ source = some p
        ∧ p.2.any (graph.find_direct_connection data_hash source dest) = false
        ∧ graph.add_edge key_equal data_hash g relation source dest
          = (some (edge.mk relation (source.id data_hash) (dest.id data_hash)),
             graph.mk g.name_ g.num_nodes_ g.started_ g.context_
               (adj_matrix.push_back key_equal g.graph_ source
                 (edge.mk relation (source.id data_hash) (dest.id data_hash)))) := by
  cases hf : adj_matrix.find key_equal g.graph_ source with
  | none => exact Or.inl (graph.add_edge_of_absent key_equal data_hash g relation source dest hf)
  | some p =>
    cases hc : p.2.any (graph.find_direct_connection data_hash source dest) with
    | true =>
      exact Or.inl
        (graph.add_edge_of_connected key_equal data_hash g relation source dest p hf hc)
    | false =>
      exact Or.inr ⟨p, rfl, hc,
        graph.add_edge_of_unconnected key_equal data_hash g relation source dest p hf hc⟩

theorem graph.add_edge_of_has_edge (key_equal : node T → node T → Bool) (data_hash : T → Nat)
    (g : graph T) (relation : String) (source dest : node T)
    (hc : graph.has_edge key_equal data_hash g source dest = true) :
    graph.add_edge key_equal data_hash g relation source dest = (none, g) := by
  cases hf : adj_matrix.find key_equal g.graph_ source with
  | none => exact graph.add_edge_of_absent key_equal data_hash g relation source dest hf
  | some p =>
    apply graph.add_edge_of_connected key_equal data_hash g relation source dest p hf
    simpa [graph.has_edge, graph.edges_of_eq key_equal g source p hf] using hc

/-! ## Lemmas on sequences of calls -/

theorem graph.step_num_nodes (key_equal : node T → node T → Bool) (data_hash : T → Nat)
    (g : graph T) (o : op T) :
    (graph.step key_equal data_hash g o).num_nodes_ = g.num_nodes_ := by
  cases o with
  | add_node name data => simp [graph.step, graph.add_node_state]
  | add_edge relation source dest =>
    rcases graph.add_edge_cases key_equal data_hash g relation source dest
      with h | ⟨p, _, _, h⟩
    · simp [graph.step, h]
    · simp [graph.step, h]
  | remove_node name => rfl

theorem graph.step_empty_store (key_equal : node T → node T → Bool) (data_hash : T → Nat)
    (g : graph T) (o : op T) (hg : g.graph_ = []) :
    (graph.step key_equal data_hash g o).graph_ = [] := by
  cases o with
  | add_node name data => simp [graph.step, graph.add_node_state, hg]
  | add_edge relation source dest =>
    have hf : adj_matrix.find key_equal g.graph_ source = none := by rw [hg]; rfl
    simp [graph.step, graph.add_edge_of_absent key_equal data_hash g relation source dest hf,
      hg]
  | remove_node name => exact hg

theorem graph.run_num_nodes (key_equal : node T → node T → Bool) (data_hash : T → Nat)
    (ops : List (op T)) (g : graph T) :
    (graph.run key_equal data_hash g ops).num_nodes_ = g.num_nodes_ := by
  induction ops generalizing g with
  | nil => rfl
  | cons o ops ih =>
    show (graph.run key_equal data_hash (graph.step key_equal data_hash g o) ops).num_nodes_
      = g.num_nodes_
    rw [ih, graph.step_num_nodes]

theorem graph.run_empty_store (key_equal : node T → node T → Bool) (data_hash : T → Nat)
    (ops : List (op T)) (g : graph T) (hg : g.graph_ = []) :
    (graph.run key_equal data_hash g ops).graph_ = [] := by
  induction ops generalizing g with
  | nil => exact hg
  | cons o ops ih =>
    show (graph.run key_equal data_hash (graph.step key_equal data_hash g o) ops).graph_ = []
    exact ih _ (graph.step_empty_store key_equal data_hash g o hg)

theorem graph.find_of_empty_store (key_equal : node T → node T → Bool) (g : graph T)
    (k : node T) (hg : g.graph_ = []) : adj_matrix.find key_equal g.graph_ k = none := by
  rw [hg]; rfl

/-! ## add_node -/

/-- C1: on a freshly constructed graph, which stores no node at all, `add_node`
returns `std::nullopt` for every name and payload and leaves the graph as it was:
the candidate is not inserted. This holds whatever the key comparison. -/
theorem add_node_on_fresh_graph_returns_none (key_equal : node T → node T → Bool)
    (gname : String) (context : connection_context) (indeterminate : Int) (name : String)
    (data : T) :
    graph.add_node key_equal (graph.ctor gname context indeterminate) name data
      = (none, graph.ctor gname context indeterminate) :=
  graph.add_node_of_absent key_equal _ name data rfl

/-- C2: with the map as declared, on every graph whose store holds a key of the
identity `(name, hash(data))`, `add_node(name, data)` returns `std::nullopt` and leaves
the graph as it was, `num_nodes` and the store with its edge sequences included. And
whatever the key comparison, in every state reached from the constructor by
`add_node`, `add_edge` and `remove_node` calls, `add_node` returns `std::nullopt` and
leaves the graph as it was. -/
theorem add_node_duplicate_returns_none (data_hash : T → Nat) (name : String) (data : T) :
    (∀ g : graph T, graph.holds_identity data_hash g (node.mk name data) = true →
      graph.add_node key_equal_declared g name data = (none, g)
      ∧ graph.num_nodes (graph.add_node key_equal_declared g name data).2 = graph.num_nodes g
      ∧ (graph.add_node key_equal_declared g name data).2.graph_ = g.graph_)
    ∧ (∀ (key_equal : node T → node T → Bool) (gname : String)
        (context : connection_context) (indeterminate : Int) (ops : List (op T)),
      graph.add_node key_equal
          (graph.run key_equal data_hash (graph.ctor gname context indeterminate) ops)
          name data
        = (none, graph.run key_equal data_hash (graph.ctor gname context indeterminate) ops))
    := by
  refine ⟨fun g _ => ?_, fun key_equal gname context indeterminate ops => ?_⟩
  · rw [graph.add_node_declared]
    exact ⟨rfl, rfl, rfl⟩
  · apply graph.add_node_of_absent
    exact graph.find_of_empty_store key_equal _ _
      (graph.run_empty_store key_equal data_hash ops _ rfl)

/-- Witness for C2: `add_node("A", "x")` on the graph holding `A("x")` and `B("y")`. -/
theorem add_node_duplicate_returns_none_witness :
    graph.holds_identity String.length graph_A_B (node.mk "A" "x") = true
    ∧ graph.add_node key_equal_declared graph_A_B "A" "x" = (none, graph_A_B) :=
  ⟨by decide,
    ((add_node_duplicate_returns_none String.length "A" "x").1 graph_A_B (by decide)).1⟩

/-- C3: the scenario on the code. On the fresh graph "G" both `add_node` calls return
`std::nullopt`, so there are no returned nodes to connect; `add_edge("knows", A, B)` on
the nodes `A("x")` and `B("y")` built by hand returns `std::nullopt` as well, the store
is still empty and `num_nodes()` is the value the constructor left in the member. -/
theorem scenario_knows_stores_nothing (key_equal : node String → node String → Bool)
    (data_hash : String → Nat) (context : connection_context) (indeterminate : Int) :
    let g0 : graph String := graph.ctor "G" context indeterminate
    let a := graph.add_node key_equal g0 "A" "x"
    let b := graph.add_node key_equal a.2 "B" "y"
    let e := graph.add_edge key_equal data_hash b.2 "knows" (node.mk "A" "x") (node.mk "B" "y")
    a.1 = none ∧ b.1 = none ∧ e.1 = none ∧ e.2.graph_ = [] ∧
      graph.num_nodes e.2 = indeterminate := by
  refine ⟨rfl, rfl, rfl, rfl, rfl⟩

/-! ## add_edge -/

/-- C4: when `source` is not a stored node of the graph, `add_edge` returns
`std::nullopt` and the graph, with its nodes and every edge sequence, is unchanged. -/
theorem add_edge_unknown_source (key_equal : node T → node T → Bool) (data_hash : T → Nat)
    (g : graph T) (relation : String) (source dest : node T)
    (hs : ¬ graph.stored key_equal g source) :
    graph.add_edge key_equal data_hash g relation source dest = (none, g) := by
  apply graph.add_edge_of_absent
  unfold graph.stored at hs
  cases hf : adj_matrix.find key_equal g.graph_ source with
  | none => rfl
  | some p => rw [hf] at hs; exact absurd rfl hs

/-- Witness for C4: `B("y")` is not stored in a graph that holds only `A("x")`. -/
theorem add_edge_unknown_source_witness :
    ¬ graph.stored (key_equal_identity String.length)
        (graph.mk "G" 0 false (connection_context.mk "127.0.0.1" 6379 4 10)
          [(node.mk "A" "x", [])]) (node.mk "B" "y")
    ∧ graph.add_edge (key_equal_identity String.length) String.length
        (graph.mk "G" 0 false (connection_context.mk "127.0.0.1" 6379 4 10)
          [(node.mk "A" "x", [])]) "knows" (node.mk "B" "y") (node.mk "A" "x")
      = (none, graph.mk "G" 0 false (connection_context.mk "127.0.0.1" 6379 4 10)
          [(node.mk "A" "x", [])]) :=
  ⟨by decide,
    add_edge_unknown_source (key_equal_identity String.length) String.length _ "knows" _ _
      (by decide)⟩

/-- C6, as amended: the relation is not part of the uniqueness key. When the sequence
of `source` already holds an edge to `dest` with relation `r1`, `add_edge(r2, source,
dest)` returns `std::nullopt` for every relation `r2` and leaves the graph unchanged:
the `r1` edge stays and no `r2` edge is added. -/
theorem add_edge_other_relation_rejected (key_equal : node T → node T → Bool)
    (data_hash : T → Nat) (g : graph T)
    (r1 r2 : String) (source dest : node T)
    (hr1 : edge.mk r1 (source.id data_hash) (dest.id data_hash)
      ∈ graph.edges_of key_equal g source) :
    graph.add_edge key_equal data_hash g r2 source dest = (none, g) := by
  cases hf : adj_matrix.find key_equal g.graph_ source with
  | none => exact graph.add_edge_of_absent key_equal data_hash g r2 source dest hf
  | some p =>
    rw [graph.edges_of_eq key_equal g source p hf] at hr1
    apply graph.add_edge_of_connected key_equal data_hash g r2 source dest p hf
    rw [List.any_eq_true]
    exact ⟨_, hr1, graph.find_direct_connection_new_edge data_hash r1 source dest⟩

/-- Witness for C6: `add_edge("knows", A, B)` where `A` already has `likes` to `B`. -/
theorem add_edge_other_relation_rejected_witness :
    edge_A_likes_B
      ∈ graph.edges_of (key_equal_identity String.length) graph_A_likes_B node_A
    ∧ graph.add_edge (key_equal_identity String.length) String.length graph_A_likes_B
        "knows" node_A node_B
      = (none, graph_A_likes_B) :=
  ⟨by decide,
    add_edge_other_relation_rejected (key_equal_identity String.length) String.length
      graph_A_likes_B "likes" "knows" node_A node_B (by decide)⟩

/-- Counterexample to C6 as stated: `A` is stored and has the edge `likes` to `B`,
"knows" differs from "likes" and no (A, B, "knows") edge is stored, yet
`add_edge("knows", A, B)` returns `std::nullopt` and the sequence of `A` still holds
the `likes` edge alone. -/
theorem add_edge_other_relation_counterexample :
    graph.stored (key_equal_identity String.length) graph_A_likes_B node_A
    ∧ edge_A_likes_B
        ∈ graph.edges_of (key_equal_identity String.length) graph_A_likes_B node_A
    ∧ "knows" ≠ "likes"
    ∧ edge_A_knows_B
        ∉ graph.edges_of (key_equal_identity String.length) graph_A_likes_B node_A
    ∧ (graph.add_edge (key_equal_identity String.length) String.length graph_A_likes_B
        "knows" node_A node_B).1 = none
    ∧ graph.edges_of (key_equal_identity String.length)
        (graph.add_edge (key_equal_identity String.length) String.length graph_A_likes_B
          "knows" node_A node_B).2 node_A
      = [edge_A_likes_B] := by
  decide

/-! ## remove_node -/

/-- C7: `remove_node` has an empty body. For every graph and name the call reaches no
`return` statement and leaves the graph as it was; on the graph holding `A`, `B` and
the edge `likes` from `B` to `A`, after `remove_node("A")` the node `A` is still a
key and the sequence of `B` still holds the edge whose destination is `A`. -/
theorem remove_node_removes_nothing :
    (∀ (g : graph String) (name : String),
        graph.remove_node g name = (call_result.no_return, g))
    ∧ graph.stored (key_equal_identity String.length)
        (graph.remove_node graph_B_likes_A "A").2 node_A
    ∧ edge_B_likes_A
        ∈ graph.edges_of (key_equal_identity String.length)
            (graph.remove_node graph_B_likes_A "A").2 node_B
    ∧ edge_B_likes_A.dest = node_A.id String.length :=
  ⟨fun _ _ => rfl, by decide, by decide, by decide⟩

/-- C9: no member writes `num_nodes_`. After any sequence of `add_node`, `add_edge`
and `remove_node` calls on a graph made by `graph(name, context)`, `num_nodes()` is
still the value the constructor left uninitialised, while the store holds no key:
the two agree only when the storage happened to hold zero. -/
theorem num_nodes_never_written (key_equal : node T → node T → Bool) (data_hash : T → Nat)
    (gname : String) (context : connection_context) (indeterminate : Int)
    (ops : List (op T)) :
    graph.num_nodes
        (graph.run key_equal data_hash (graph.ctor gname context indeterminate) ops)
      = indeterminate
    ∧ (graph.run key_equal data_hash
        (graph.ctor gname context indeterminate) ops).graph_.length = 0 := by
  refine ⟨graph.run_num_nodes key_equal data_hash ops _, ?_⟩
  rw [graph.run_empty_store key_equal data_hash ops _ rfl]
  rfl

theorem graph.step_source_inv (key_equal : node T → node T → Bool) (data_hash : T → Nat)
    (hsound : key_equal_sound key_equal data_hash) (g : graph T) (o : op T)
    (hinv : graph.source_inv data_hash g) :
    graph.source_inv data_hash (graph.step key_equal data_hash g o) := by
  cases o with
  | add_node name data =>
    show graph.source_inv data_hash (graph.add_node key_equal g name data).2
    rw [graph.add_node_state]
    exact hinv
  | add_edge relation source dest =>
    show graph.source_inv data_hash
      (graph.add_edge key_equal data_hash g relation source dest).2
    rcases graph.add_edge_cases key_equal data_hash g relation source dest
      with h | ⟨p, _, _, h⟩
    · rw [h]; exact hinv
    · rw [h]
      intro q hq e he
      rcases adj_matrix.mem_push_back key_equal g.graph_ source _ q hq
        with hm | ⟨r, hr, hrk, rfl⟩
      · exact hinv q hm e he
      · rcases List.mem_append.1 he with he | he
        · exact hinv r hr e he
        · rw [List.mem_singleton.1 he]
          exact (hsound r.1 source hrk).symm
  | remove_node name => exact hinv

theorem graph.run_source_inv (key_equal : node T → node T → Bool) (data_hash : T → Nat)
    (hsound : key_equal_sound key_equal data_hash) (ops : List (op T)) (g : graph T)
    (hinv : graph.source_inv data_hash g) :
    graph.source_inv data_hash (graph.run key_equal data_hash g ops) := by
  induction ops generalizing g with
  | nil => exact hinv
  | cons o ops ih => exact ih _ (graph.step_source_inv key_equal data_hash hsound g o hinv)

/-- C10: after any sequence of `add_node` and `add_edge` calls (and of `remove_node`
calls, which write nothing) on a graph made by `graph(name, context)`, every edge in
the sequence of a node key `k` has source id `k.id()`, whatever the key comparison;
and with a key comparison under which equal keys have the same identity, the
declared one and the one by identity included, the calls keep that property from any
graph that has it, whatever it stores. -/
theorem stored_edge_source_is_key (key_equal : node T → node T → Bool) (data_hash : T → Nat)
    (ops : List (op T)) :
    (∀ (gname : String) (context : connection_context) (indeterminate : Int),
      ∀ p ∈ (graph.run key_equal data_hash
          (graph.ctor gname context indeterminate) ops).graph_,
        ∀ e ∈ p.2, e.source = p.1.id data_hash)
    ∧ (key_equal_sound key_equal data_hash →
      ∀ g : graph T, graph.source_inv data_hash g →
        ∀ p ∈ (graph.run key_equal data_hash g ops).graph_,
          ∀ e ∈ p.2, e.source = p.1.id data_hash) := by
  refine ⟨fun gname context indeterminate => ?_, fun hsound g hinv => ?_⟩
  · rw [graph.run_empty_store key_equal data_hash ops _ rfl]
    intro p hp
    exact absurd hp (by simp)
  · exact graph.run_source_inv key_equal data_hash hsound ops g hinv

/-- Witness for C10: two `add_edge` calls on the graph holding `A` and `B`, keys
compared by identity; both edges are stored, each under its source. -/
theorem stored_edge_source_is_key_witness :
    (graph.run (key_equal_identity String.length) String.length graph_A_B
        [op.add_edge "knows" node_A node_B, op.add_edge "likes" node_B node_A]).graph_
      = [(node_A, [edge_A_knows_B]), (node_B, [edge_B_likes_A])]
    ∧ ∀ p ∈ (graph.run (key_equal_identity String.length) String.length graph_A_B
        [op.add_edge "knows" node_A node_B, op.add_edge "likes" node_B node_A]).graph_,
        ∀ e ∈ p.2, e.source = p.1.id String.length :=
  ⟨by decide,
    (stored_edge_source_is_key (key_equal_identity String.length) String.length
      [op.add_edge "knows" node_A node_B, op.add_edge "likes" node_B node_A]).2
      (key_equal_identity_sound String.length) graph_A_B (by decide)⟩

/-! ## query_async and commit_async -/

/-- C11: on a freshly constructed graph, which is Stopped, the future `query_async`
returns and the one `commit_async` returns are ready with the `std::future_error` of
code `broken_promise`, left by a packaged task that is destroyed without having been
called; what they deliver is not the `NotStarted` failure. The graph is unchanged. -/
theorem async_members_on_stopped_graph (gname : String) (context : connection_context)
    (indeterminate : Int) (q : String) :
    graph.running (graph.ctor gname context indeterminate : graph T) = false
    ∧ graph.query_async (graph.ctor gname context indeterminate : graph T) q
      = (shared_state.exception (stored_exception.future_error future_errc.broken_promise),
         graph.ctor gname context indeterminate)
    ∧ (graph.query_async (graph.ctor gname context indeterminate : graph T) q).1
      ≠ shared_state.exception (stored_exception.dispatcher dispatcher_error.NotStarted)
    ∧ graph.commit_async (graph.ctor gname context indeterminate : graph T)
      = (shared_state.exception (stored_exception.future_error future_errc.broken_promise),
         graph.ctor gname context indeterminate)
    ∧ (graph.commit_async (graph.ctor gname context indeterminate : graph T)).1
      ≠ shared_state.exception (stored_exception.dispatcher dispatcher_error.NotStarted) := by
  refine ⟨rfl, rfl, ?_, rfl, ?_⟩
  · show shared_state.exception (stored_exception.future_error future_errc.broken_promise)
      ≠ shared_state.exception (stored_exception.dispatcher dispatcher_error.NotStarted)
    intro h
    cases h
  · show shared_state.exception (stored_exception.future_error future_errc.broken_promise)
      ≠ shared_state.exception (stored_exception.dispatcher dispatcher_error.NotStarted)
    intro h
    cases h

/-! ## Lifecycle -/

/-- C12: `start()` and `shutdown()` are idempotent, and whatever the state before,
the graph is Running after `start()` and Stopped after `shutdown()`. -/
theorem start_shutdown_idempotent (g : graph T) :
    graph.start (graph.start g) = graph.start g
    ∧ graph.shutdown (graph.shutdown g) = graph.shutdown g
    ∧ graph.running (graph.start g) = true
    ∧ graph.running (graph.shutdown g) = false :=
  ⟨rfl, rfl, rfl, rfl⟩

/-- C13: the move constructor leaves the source Stopped and gives the constructed
graph the name, the context, the adjacency contents and `num_nodes` of the source, but
it writes no `started_`: the constructed graph is Running or not as the storage of
its flag happened to be, and is Stopped after moving from a Running graph when it
held `false`. -/
theorem move_ctor_leaves_started_unwritten (g : graph T) (unspecified_name : String)
    (indeterminate_started : Bool) (indeterminate_context : connection_context) :
    (graph.move_ctor g unspecified_name indeterminate_started indeterminate_context).2.started_
      = false
    ∧ graph.running
        (graph.move_ctor g unspecified_name indeterminate_started indeterminate_context).1
      = indeterminate_started
    ∧ graph.running (graph.start g) = true
    ∧ graph.running
        (graph.move_ctor (graph.start g) unspecified_name false indeterminate_context).1
      = false
    ∧ graph.name
        (graph.move_ctor g unspecified_name indeterminate_started indeterminate_context).1
      = graph.name g
    ∧ (graph.move_ctor g unspecified_name indeterminate_started indeterminate_context).1.context_
      = g.context_
    ∧ (graph.move_ctor g unspecified_name indeterminate_started indeterminate_context).1.graph_
      = g.graph_
    ∧ graph.num_nodes
        (graph.move_ctor g unspecified_name indeterminate_started indeterminate_context).1
      = graph.num_nodes g :=
  ⟨rfl, rfl, rfl, rfl, rfl, rfl, rfl, rfl⟩

/-! ## make_graph and connection_context -/

/-- C15: the accessors of `connection_context(host, port, n_threads, pool_size)`, with
the port within 0..65535, return those four values, and 6379, 4 and 10 where the
argument is defaulted; a copy constructed and a copy assigned context return the four
values of their source, which is left as it was. -/
theorem connection_context_value_object (host : String) (port n_threads pool_size : Nat)
    (hport : port < 65536) :
    ((connection_context.ctor host port n_threads pool_size).host = host
      ∧ (connection_context.ctor host port n_threads pool_size).port = port
      ∧ (connection_context.ctor host port n_threads pool_size).n_threads = n_threads
      ∧ (connection_context.ctor host port n_threads pool_size).pool_size = pool_size)
    ∧ ((connection_context.ctor host connection_context.default_redis_port
          connection_context.default_n_threads connection_context.default_pool_size).host
        = host
      ∧ (connection_context.ctor host connection_context.default_redis_port
          connection_context.default_n_threads connection_context.default_pool_size).port
        = 6379
      ∧ (connection_context.ctor host connection_context.default_redis_port
          connection_context.default_n_threads connection_context.default_pool_size).n_threads
        = 4
      ∧ (connection_context.ctor host connection_context.default_redis_port
          connection_context.default_n_threads connection_context.default_pool_size).pool_size
        = 10)
    ∧ (∀ source : connection_context,
        (connection_context.copy_ctor source).1.host = source.host
        ∧ (connection_context.copy_ctor source).1.port = source.port
        ∧ (connection_context.copy_ctor source).1.n_threads = source.n_threads
        ∧ (connection_context.copy_ctor source).1.pool_size = source.pool_size
        ∧ (connection_context.copy_ctor source).2 = source)
    ∧ (∀ target source : connection_context,
        (connection_context.assign target source false).1.host = source.host
        ∧ (connection_context.assign target source false).1.port = source.port
        ∧ (connection_context.assign target source false).1.n_threads = source.n_threads
        ∧ (connection_context.assign target source false).1.pool_size = source.pool_size
        ∧ (connection_context.assign target source false).2 = source)
    ∧ (∀ source : connection_context,
        connection_context.assign source source true = (source, source)) := by
  refine ⟨⟨rfl, ?_, rfl, rfl⟩, ⟨rfl, rfl, rfl, rfl⟩, fun source => ⟨rfl, rfl, rfl, rfl, rfl⟩,
    fun target source => ⟨rfl, rfl, rfl, rfl, rfl⟩, fun source => rfl⟩
  show port % 2 ^ 16 = port
  exact Nat.mod_eq_of_lt hport

/-- Witness for C15: `connection_context("redis.local", 7000, 8, 20)`. -/
theorem connection_context_value_object_witness :
    (7000 : Nat) < 65536
    ∧ (connection_context.ctor "redis.local" 7000 8 20).host = "redis.local"
    ∧ (connection_context.ctor "redis.local" 7000 8 20).port = 7000
    ∧ (connection_context.ctor "redis.local" 7000 8 20).n_threads = 8
    ∧ (connection_context.ctor "redis.local" 7000 8 20).pool_size = 20 :=
  ⟨by decide,
    (connection_context_value_object "redis.local" 7000 8 20 (by decide)).1⟩

/-! ## add_edge: result, uniqueness and frame -/

/-- C17: `find_direct_connection(source, dest, e)` is true exactly when `e.source()` is
`source.id()` and `e.dest()` is `dest.id()`, for any nodes, stored or not; the call
always gives a result and leaves the graph as it was. -/
theorem find_direct_connection_spec (data_hash : T → Nat) (g : graph T)
    (source dest : node T) (e : edge) :
    ((graph.call_find_direct_connection data_hash g source dest e).1 = true
      ↔ (e.source = source.id data_hash ∧ e.dest = dest.id data_hash))
    ∧ (graph.call_find_direct_connection data_hash g source dest e).2 = g
    ∧ (∃ b : Bool, graph.call_find_direct_connection data_hash g source dest e = (b, g)) := by
  refine ⟨?_, rfl, ⟨_, rfl⟩⟩
  simp [graph.call_find_direct_connection, graph.find_direct_connection]

theorem graph.step_pair_inv (key_equal : node T → node T → Bool) (data_hash : T → Nat)
    (g : graph T) (o : op T)
    (hinv : graph.pair_inv g) : graph.pair_inv (graph.step key_equal data_hash g o) := by
  cases o with
  | add_node name data =>
    show graph.pair_inv (graph.add_node key_equal g name data).2
    rw [graph.add_node_state]
    exact hinv
  | add_edge relation source dest =>
    show graph.pair_inv (graph.add_edge key_equal data_hash g relation source dest).2
    rcases graph.add_edge_cases key_equal data_hash g relation source dest
      with h | ⟨p, hf, hc, h⟩
    · rw [h]; exact hinv
    · rw [h]
      intro q hq
      rcases adj_matrix.mem_push_back_of_find key_equal g.graph_ source _ p q hf hq
        with hm | rfl
      · exact hinv q hm
      · have hp := hinv p (adj_matrix.find_some_mem key_equal g.graph_ source p hf).2
        show ((p.2 ++ [edge.mk relation (source.id data_hash) (dest.id data_hash)]).map
          (fun e => (e.source, e.dest))).Nodup
        rw [List.map_append, List.nodup_append]
        refine ⟨hp, List.nodup_singleton _, ?_⟩
        intro pr hpr hpr2
        rw [List.map_singleton, List.mem_singleton] at hpr2
        obtain ⟨e, he, hepr⟩ := List.mem_map.1 hpr
        have hfalse := List.any_eq_false.1 hc e he
        apply hfalse
        have h1 : e.source = source.id data_hash := by
          have := congrArg Prod.fst (hepr.trans hpr2)
          simpa using this
        have h2 : e.dest = dest.id data_hash := by
          have := congrArg Prod.snd (hepr.trans hpr2)
          simpa using this
        simp [graph.find_direct_connection, h1, h2]
  | remove_node name => exact hinv

theorem graph.run_pair_inv (key_equal : node T → node T → Bool) (data_hash : T → Nat)
    (ops : List (op T)) (g : graph T)
    (hinv : graph.pair_inv g) : graph.pair_inv (graph.run key_equal data_hash g ops) := by
  induction ops generalizing g with
  | nil => exact hinv
  | cons o ops ih => exact ih _ (graph.step_pair_inv key_equal data_hash g o hinv)

/-- C18: after any sequence of `add_node` and `add_edge` calls (and of `remove_node`
calls, which write nothing) on a graph made by `graph(name, context)`, no edge
sequence holds two edges with the same ordered (source id, dest id) pair, whatever
their relations; the calls keep that property from any graph that has it; and
`add_edge` returns `std::nullopt`, changing nothing, whenever `source` already has an
edge to `dest`. All of it holds whatever the key comparison. -/
theorem one_edge_per_ordered_pair (key_equal : node T → node T → Bool) (data_hash : T → Nat)
    (ops : List (op T)) :
    (∀ (gname : String) (context : connection_context) (indeterminate : Int),
      ∀ p ∈ (graph.run key_equal data_hash
          (graph.ctor gname context indeterminate) ops).graph_,
        (p.2.map (fun e => (e.source, e.dest))).Nodup)
    ∧ (∀ g : graph T, graph.pair_inv g →
      ∀ p ∈ (graph.run key_equal data_hash g ops).graph_,
        (p.2.map (fun e => (e.source, e.dest))).Nodup)
    ∧ (∀ (g : graph T) (relation : String) (source dest : node T),
      graph.has_edge key_equal data_hash g source dest = true →
        graph.add_edge key_equal data_hash g relation source dest = (none, g)) := by
  refine ⟨fun gname context indeterminate => ?_, fun g hinv => ?_, ?_⟩
  · rw [graph.run_empty_store key_equal data_hash ops _ rfl]
    intro p hp
    exact absurd hp (by simp)
  · exact graph.run_pair_inv key_equal data_hash ops g hinv
  · intro g relation source dest hc
    exact graph.add_edge_of_has_edge key_equal data_hash g relation source dest hc

/-- Witness for C18: keys compared by identity, on the graph holding `A` and `B`,
`add_edge("knows", A, B)` stores the edge and `add_edge("likes", A, B)` after it is
rejected; `A` keeps one edge to `B`. -/
theorem one_edge_per_ordered_pair_witness :
    (graph.run (key_equal_identity String.length) String.length graph_A_B
        [op.add_edge "knows" node_A node_B, op.add_edge "likes" node_A node_B]).graph_
      = [(node_A, [edge_A_knows_B]), (node_B, [])]
    ∧ (∀ p ∈ (graph.run (key_equal_identity String.length) String.length graph_A_B
        [op.add_edge "knows" node_A node_B, op.add_edge "likes" node_A node_B]).graph_,
        (p.2.map (fun e => (e.source, e.dest))).Nodup)
    ∧ graph.add_edge (key_equal_identity String.length) String.length graph_A_likes_B
        "knows" node_A node_B
      = (none, graph_A_likes_B) :=
  ⟨by decide,
    (one_edge_per_ordered_pair (key_equal_identity String.length) String.length
      [op.add_edge "knows" node_A node_B, op.add_edge "likes" node_A node_B]).2.1
      graph_A_B (by decide),
    (one_edge_per_ordered_pair (key_equal_identity String.length) String.length
      ([] : List (op String))).2.2
      graph_A_likes_B "knows" node_A node_B (by decide)⟩

/-- C19: `add_edge` changes nothing but the edge sequence of `source`. The node keys of
the store, `num_nodes`, the name, the context and the started flag are as before,
whatever the key comparison; with a key comparison under which equal keys have the
same identity, the declared one and the one by identity included, the sequence of
every node of another identity is as before; the sequence of `source` is unchanged
when the result is `std::nullopt` and is the old one with the returned edge appended
when there is a result. -/
theorem add_edge_frame (key_equal : node T → node T → Bool) (data_hash : T → Nat)
    (g : graph T) (relation : String) (source dest : node T) :
    (graph.add_edge key_equal data_hash g relation source dest).2.graph_.map Prod.fst
      = g.graph_.map Prod.fst
    ∧ graph.num_nodes (graph.add_edge key_equal data_hash g relation source dest).2
      = graph.num_nodes g
    ∧ graph.name (graph.add_edge key_equal data_hash g relation source dest).2 = graph.name g
    ∧ (graph.add_edge key_equal data_hash g relation source dest).2.context_ = g.context_
    ∧ (graph.add_edge key_equal data_hash g relation source dest).2.started_ = g.started_
    ∧ (key_equal_sound key_equal data_hash →
        ∀ k : node T, k.id data_hash ≠ source.id data_hash →
          graph.edges_of key_equal
              (graph.add_edge key_equal data_hash g relation source dest).2 k
            = graph.edges_of key_equal g k)
    ∧ (((graph.add_edge key_equal data_hash g relation source dest).1 = none
        ∧ graph.edges_of key_equal
            (graph.add_edge key_equal data_hash g relation source dest).2 source
          = graph.edges_of key_equal g source)
      ∨ ∃ e, (graph.add_edge key_equal data_hash g relation source dest).1 = some e
        ∧ graph.edges_of key_equal
            (graph.add_edge key_equal data_hash g relation source dest).2 source
          = graph.edges_of key_equal g source ++ [e]) := by
  rcases graph.add_edge_cases key_equal data_hash g relation source dest
    with h | ⟨p, hf, _, h⟩
  · rw [h]
    exact ⟨rfl, rfl, rfl, rfl, rfl, fun _ _ _ => rfl, Or.inl ⟨rfl, rfl⟩⟩
  · rw [h]
    refine ⟨adj_matrix.push_back_keys key_equal g.graph_ source _, rfl, rfl, rfl, rfl,
      fun hsound k hk => ?_, Or.inr ⟨_, rfl, ?_⟩⟩
    · unfold graph.edges_of
      show (match adj_matrix.find key_equal
          (adj_matrix.push_back key_equal g.graph_ source
            (edge.mk relation (source.id data_hash) (dest.id data_hash))) k with
        | some p => p.2
        | none => []) = _
      rw [adj_matrix.find_push_back_other key_equal data_hash hsound g.graph_ source k _ hk]
    · have hf2 := adj_matrix.find_push_back_same key_equal g.graph_ source
        (edge.mk relation (source.id data_hash) (dest.id data_hash)) p hf
      rw [graph.edges_of_eq key_equal _ source _ hf2,
        graph.edges_of_eq key_equal g source p hf]

/-- Witness for C19: keys compared by identity, `add_edge("knows", A, B)` on the graph
holding `A` and `B` with the edge `likes` from `B` to `A`; the sequence of `B` is as
before. -/
theorem add_edge_frame_witness :
    node_B.id String.length ≠ node_A.id String.length
    ∧ (graph.add_edge (key_equal_identity String.length) String.length graph_B_likes_A
        "knows" node_A node_B).1
      = some edge_A_knows_B
    ∧ graph.edges_of (key_equal_identity String.length)
        (graph.add_edge (key_equal_identity String.length) String.length graph_B_likes_A
          "knows" node_A node_B).2 node_B
      = graph.edges_of (key_equal_identity String.length) graph_B_likes_A node_B :=
  ⟨by decide, by decide,
    (add_edge_frame (key_equal_identity String.length) String.length graph_B_likes_A
      "knows" node_A node_B).2.2.2.2.2.1
      (key_equal_identity_sound String.length) node_B (by decide)⟩

end redisgraph
